import Mathlib

/-!
Verification of `streamlit_extras.function_explorer`
(src/streamlit_extras/function_explorer/__init__.py).

The module renders one input widget per parameter of a target function,
collects the widget values into an `inputs` dict, invokes the function
with them, and remembers the inputs in `st.session_state` keyed by the
function's name.

Shallow embedding conventions:
- Python runtime values that can flow through this code are modelled by
  `Value`; floats are modelled by rationals (only literals such as `12.0`
  and truthiness ever matter here, never float arithmetic).
- A `pd.DataFrame` is modelled as `Value.table` (a list of rows); its
  truthiness raises, as pandas `NDFrame.__bool__` unconditionally does.
- Python `x or y` is `pyOr` (short-circuit on the truthiness of `x`).
- Type annotations are modelled by `TypeHint`. `TypeHint.union` models a
  `typing.Union`/`typing.Optional` alias (which the code's
  `isinstance(type_hint, UnionType)` check recognizes, with
  `UnionType = type(Union[int, float])`); `TypeHint.unnamed` models an
  annotation object with no `__name__` attribute, such as a PEP 604
  union `int | str` (a `types.UnionType` instance, not recognized by
  that `isinstance` check and lacking `__name__`) or a non-class object.
- Raised exceptions are `Except.error` with a short tag for the Python
  exception ("KeyError", "ValueError", "IndexError", or the message of
  the explicit `raise Exception(...)`).
- `st.session_state` is an association list from function name to the
  remembered `inputs` association list (the code stores them under the
  sub-key "inputs"; the sub-dict is only ever created together with that
  key, so the two levels are collapsed).
- A widget call returns the user-chosen value; the user's interaction is
  modelled by `edits : String → Option Value` giving, per argument name,
  the value the user has set, `Option.none` meaning the user has not
  touched the widget so it returns the default passed to it.
-/

/-- A Python runtime value as it can occur in this module. -/
inductive Value where
  | int : Int → Value
  | float : ℚ → Value
  | str : String → Value
  | bool : Bool → Value
  | table : List String → Value
  | none : Value
deriving DecidableEq, Repr

/-- Python truthiness. `bool()` of a pandas DataFrame raises
`ValueError: The truth value of a DataFrame is ambiguous`. -/
def truthy : Value → Except String Bool
  | .int i => .ok (i ≠ 0)
  | .float q => .ok (q ≠ 0)
  | .str s => .ok (s ≠ "")
  | .bool b => .ok b
  | .table _ => .error "ValueError"
  | .none => .ok false

/-- Python `x or y`: evaluates the truthiness of `x`; returns `x` if
truthy, else `y`. -/
def pyOr (x y : Value) : Except String Value := do
  if (← truthy x) then pure x else pure y

/-- Python `list.index(v)`: position of `v`, or `ValueError` if absent. -/
def py_index (options : List Value) (v : Value) : Except String Nat :=
  match options.indexOf? v with
  | Option.none => .error "ValueError"
  | some i => .ok i

/-- Python `s.endswith(suffix)`: character-level suffix test. -/
def py_endswith (s suffix : String) : Bool :=
  suffix.data.isSuffixOf s.data

/-- A resolved type annotation (`Argument.type_hint`). `empty` models
`inspect.Parameter.empty` (no annotation); `lit vs` models
`typing.Literal[vs]`; `union ts` models a `typing.Union` alias over `ts`;
`named n` models any other annotation exposing `__name__ = n`;
`unnamed s` models an annotation with no `__name__` attribute whose
`str()` is `s` (e.g. a PEP 604 union `int | str`). -/
inductive TypeHint where
  | empty
  | int
  | float
  | str
  | bool
  | dataFrame
  | noneType
  | lit : List Value → TypeHint
  | union : List TypeHint → TypeHint
  | named : String → TypeHint
  | unnamed : String → TypeHint

/-- Whether `hasattr(type_hint, "__name__")` holds; `typing` aliases
(`Union`, `Literal`, ...) and classes expose `__name__`, while
`types.UnionType` instances and non-class objects do not. -/
def hasName : TypeHint → Bool
  | .unnamed _ => false
  | _ => true

/-- The `__name__` of an annotation (used as the label's type suffix). -/
def typeName : TypeHint → String
  | .empty => "empty"
  | .int => "int"
  | .float => "float"
  | .str => "str"
  | .bool => "bool"
  | .dataFrame => "DataFrame"
  | .noneType => "NoneType"
  | .lit _ => "Literal"
  | .union _ => "Union"
  | .named n => n
  | .unnamed s => s

/-- One parameter descriptor, as produced by `get_arg_details`:
`Argument(argument=k, type_hint=v.annotation, default=v.default)`.
A `default` of `Option.none` models `inspect.Parameter.empty`. -/
structure Argument where
  argument : String
  type_hint : TypeHint
  default : Option Value

/-- The remembered inputs of one function: an insertion-ordered dict. -/
abbrev InputValues := List (String × Value)

/-- `st.session_state`: function name ↦ remembered inputs (stored by the
code as `st.session_state[name]["inputs"]`). -/
abbrev SessionState := List (String × InputValues)

/-- `get_arg_from_session_state(func_name, argument)`: returns the
remembered value, or Python `None` when the function has no record;
raises `KeyError` when a record exists but lacks this argument. -/
def get_arg_from_session_state (ss : SessionState) (func_name argument : String) :
    Except String Value :=
  match ss.lookup func_name with
  | Option.none => .ok Value.none
  | some inputs =>
    match inputs.lookup argument with
    | Option.none => .error "KeyError"
    | some v => .ok v

/-- The `(get_arg_from_session_state(...) or default) if not
is_empty(default) else fallback` pattern shared by the untyped, float,
str, bool and Literal branches: when a declared/overridden default is
present, recall from session with the default as `or`-fallback;
otherwise use the hardcoded fallback without consulting the session. -/
def recall_or (ss : SessionState) (func_name argument : String)
    (default : Option Value) (fallback : Value) : Except String Value :=
  match default with
  | some dv => do pyOr (← get_arg_from_session_state ss func_name argument) dv
  | Option.none => pure fallback

/-- One rendered input widget, carrying its label and the default value
passed to it (for `selectbox`, the option list and initial index). -/
inductive Widget where
  | text_input (label : String) (value : Value)
  | number_input_step1 (label : String) (value : Value)
  | number_input (label : String) (value : Value)
  | color_picker (label : String) (value : Value)
  | st_keyup (label : String) (value : Value)
  | checkbox (label : String) (value : Value)
  | selectbox (label : String) (options : List Value) (index : Nat)
deriving DecidableEq, Repr

/-- What processing one argument produced: the rendered widget (if any),
a warning message (if any), and the value inserted into `inputs`
(if any). -/
structure ArgRender where
  widget : Option Widget
  warn : Option String
  entry : Option Value
deriving DecidableEq, Repr

/-- Override lookup: `default_arguments and argument in default_arguments`. -/
def override_lookup (default_arguments : Option (List (String × Value)))
    (argument : String) : Option Value :=
  match default_arguments with
  | some da => da.lookup argument
  | Option.none => Option.none

/-- Union normalization (lines 75-79): a two-armed `typing.Union` whose
second arm is `NoneType` is replaced by its first arm. -/
def normalize_hint : TypeHint → TypeHint
  | .union [t, .noneType] => t
  | t => t

/-- The label before the type suffix (line 70): the argument name,
starred when the declared default is `inspect.Parameter.empty`. -/
def pa_label (info : Argument) : String :=
  if info.default.isSome then info.argument else info.argument ++ "*"

/-- The default after applying the caller's override (lines 72-73): the
override when one is passed for this argument, else the declared
default. -/
def pa_default (default_arguments : Option (List (String × Value)))
    (info : Argument) : Option Value :=
  match override_lookup default_arguments info.argument with
  | some v => some v
  | Option.none => info.default

/-- The body of the `for argument_info in args` loop of
`function_explorer`, for one argument: computes the label, applies the
caller override, normalizes the type hint, dispatches on the resolved
type to pick the widget and its effective default, and records the
widget's returned value in `inputs`. -/
def process_argument (ss : SessionState) (func_name : String)
    (default_arguments : Option (List (String × Value)))
    (edits : String → Option Value) (info : Argument) :
    Except String ArgRender :=
  let argument := info.argument
  let label := pa_label info
  let default := pa_default default_arguments info
  match normalize_hint info.type_hint with
  | .empty => do
    let d ← recall_or ss func_name argument default (Value.str "Sample string")
    pure ⟨some (.text_input label d), Option.none, some ((edits argument).getD d)⟩
  | th =>
    if hasName th then
      let label := label ++ " (" ++ typeName th ++ ")"
      match th with
      | .int => do
        let s ← get_arg_from_session_state ss func_name argument
        let d ← pyOr s (default.getD (Value.int 12))
        pure ⟨some (.number_input_step1 label d), Option.none,
          some ((edits argument).getD d)⟩
      | .float => do
        let d ← recall_or ss func_name argument default (Value.float 12)
        pure ⟨some (.number_input label d), Option.none,
          some ((edits argument).getD d)⟩
      | .str =>
        if py_endswith argument "_color" then do
          let d ← recall_or ss func_name argument default (Value.str "#000000")
          pure ⟨some (.color_picker label d), Option.none,
            some ((edits argument).getD d)⟩
        else do
          let d ← recall_or ss func_name argument default (Value.str "Sample string")
          pure ⟨some (.st_keyup label d), Option.none,
            some ((edits argument).getD d)⟩
      | .bool => do
        let d ← recall_or ss func_name argument default (Value.bool true)
        pure ⟨some (.checkbox label d), Option.none,
          some ((edits argument).getD d)⟩
      | .dataFrame => do
        let s ← get_arg_from_session_state ss func_name argument
        let v ← pyOr s (Value.table ["abcde"])
        pure ⟨Option.none, Option.none, some v⟩
      | .lit options => do
        let d ← match default with
          | some _ => recall_or ss func_name argument default Value.none
          | Option.none =>
            match options with
            | [] => Except.error "IndexError"
            | o :: _ => pure o
        let idx ← py_index options d
        pure ⟨some (.selectbox label options idx), Option.none,
          some ((edits argument).getD d)⟩
      | th => pure ⟨Option.none,
          some ("function_explorer does not support type " ++ typeName th),
          Option.none⟩
    else
      Except.error ("Not sure how to handle " ++ typeName th)

/-- The whole widget loop: processes the arguments in declared order,
building the insertion-ordered `inputs` dict and the list of per-argument
render results. The first raised exception aborts the loop. -/
def render_args (ss : SessionState) (func_name : String)
    (default_arguments : Option (List (String × Value)))
    (edits : String → Option Value) :
    List Argument → Except String (InputValues × List ArgRender)
  | [] => .ok ([], [])
  | info :: rest => do
    let r ← process_argument ss func_name default_arguments edits info
    let (inputs, rs) ← render_args ss func_name default_arguments edits rest
    match r.entry with
    | some v => pure ((info.argument, v) :: inputs, r :: rs)
    | Option.none => pure (inputs, r :: rs)

/-- Store `v` under key `k`, replacing an existing binding in place. -/
def setk (ss : SessionState) (k : String) (v : InputValues) : SessionState :=
  match ss with
  | [] => [(k, v)]
  | (k₁, v₁) :: rest => if k₁ = k then (k, v) :: rest else (k₁, v₁) :: setk rest k v

/-- `function_explorer(func, default_arguments)`: renders the widgets,
invokes `func(**inputs)`, and only after the invocation returns writes
`inputs` into the session record under the function's name. The target
function is modelled by its name and argument list plus a callable
`func` on the collected inputs; the returned pair is the session state
after the run together with the outcome (an exception propagates and
leaves the session state as it was). -/
def function_explorer (ss : SessionState) (func_name : String)
    (args : List Argument) (default_arguments : Option (List (String × Value)))
    (edits : String → Option Value)
    (func : InputValues → Except String Unit) :
    SessionState × Except String (InputValues × List ArgRender) :=
  match render_args ss func_name default_arguments edits args with
  | .error e => (ss, .error e)
  | .ok (inputs, renders) =>
    match func inputs with
    | .error e => (ss, .error e)
    | .ok _ => (setk ss func_name inputs, .ok (inputs, renders))

/-- The user touching no widget: every widget returns its default. -/
def noEdits : String → Option Value := fun _ => Option.none

/-- A target function that accepts any inputs and returns normally. -/
def okFunc : InputValues → Except String Unit := fun _ => .ok ()

/-- A target function that raises on any inputs. -/
def raisingFunc : InputValues → Except String Unit := fun _ => .error "boom"

/-- The default value a widget was given (for a selectbox, the option at
its initial index). -/
def widget_default : Widget → Option Value
  | .text_input _ v => some v
  | .number_input_step1 _ v => some v
  | .number_input _ v => some v
  | .color_picker _ v => some v
  | .st_keyup _ v => some v
  | .checkbox _ v => some v
  | .selectbox _ options idx => options.get? idx

/-- Hints handled by the plain widget branches (untyped, int, float,
str, bool): the ones whose effective default combines session and
override by `or`-recall. -/
def scalar_hint : TypeHint → Bool
  | .empty => true
  | .int => true
  | .float => true
  | .str => true
  | .bool => true
  | _ => false

/-- The four base annotated types of claim C3. -/
def base_typed : TypeHint → Bool
  | .int => true
  | .float => true
  | .str => true
  | .bool => true
  | _ => false

/-- Whether a value is a DataFrame (its truthiness raises). -/
def is_table : Value → Bool
  | .table _ => true
  | _ => false

/-- Arguments whose widget value survives the session round-trip when
neither render has overrides or user edits: the scalar branches with a
non-DataFrame (or absent) declared default, and Literal hints whose
declared default is among the options (or, if absent, with at least one
option). -/
def reproducible (a : Argument) : Bool :=
  match a.type_hint with
  | .empty => !(is_table (a.default.getD Value.none))
  | .int => !(is_table (a.default.getD Value.none))
  | .float => !(is_table (a.default.getD Value.none))
  | .str => !(is_table (a.default.getD Value.none))
  | .bool => !(is_table (a.default.getD Value.none))
  | .lit options =>
    match a.default with
    | some dv => decide (dv ∈ options) && !(is_table dv)
    | Option.none => !options.isEmpty
  | _ => false

/-- The value an argument contributes to `inputs` on a render with no
session record, no overrides and no user edits. -/
def first_value (a : Argument) : Value :=
  match a.type_hint with
  | .empty => a.default.getD (Value.str "Sample string")
  | .int => a.default.getD (Value.int 12)
  | .float => a.default.getD (Value.float 12)
  | .str => a.default.getD
      (Value.str (if py_endswith a.argument "_color" then "#000000" else "Sample string"))
  | .bool => a.default.getD (Value.bool true)
  | .lit options => a.default.getD (options.headD Value.none)
  | _ => Value.none

/-- Whether an argument's branch inserts a value into `inputs` (all
supported resolved types do; the warning branch does not). -/
def produces_entry (a : Argument) : Bool :=
  match normalize_hint a.type_hint with
  | .empty => true
  | .int => true
  | .float => true
  | .str => true
  | .bool => true
  | .dataFrame => true
  | .lit _ => true
  | _ => false

/-- The label with the type-name suffix appended (line 90). -/
def pa_tlabel (a : Argument) (th : TypeHint) : String :=
  pa_label a ++ " (" ++ typeName th ++ ")"

/-- The parameter list of `f(a: int = 0, b: float = 0.0, c: str = "", d: bool = False)`. -/
def falsyArgs : List Argument :=
  [⟨"a", TypeHint.int, some (Value.int 0)⟩,
   ⟨"b", TypeHint.float, some (Value.float 0)⟩,
   ⟨"c", TypeHint.str, some (Value.str "")⟩,
   ⟨"d", TypeHint.bool, some (Value.bool false)⟩]

/-- The parameter list of the example function
`foo(age: int, name: str, image_url: str = "http://placekitten.com/120/120")`. -/
def fooArgs : List Argument :=
  [⟨"age", TypeHint.int, Option.none⟩,
   ⟨"name", TypeHint.str, Option.none⟩,
   ⟨"image_url", TypeHint.str, some (Value.str "http://placekitten.com/120/120")⟩]

@[simp] theorem ok_bind {ε α β : Type} (a : α) (f : α → Except ε β) :
    (Except.ok a : Except ε α) >>= f = f a := rfl

@[simp] theorem error_bind {ε α β : Type} (e : ε) (f : α → Except ε β) :
    (Except.error e : Except ε α) >>= f = Except.error e := rfl

theorem truthy_ok_of_not_table (v : Value) (h : is_table v = false) :
    ∃ b, truthy v = .ok b := by
  cases v <;> first | exact ⟨_, rfl⟩ | simp [is_table] at h

theorem pyOr_eq (s y : Value) (b : Bool) (hb : truthy s = .ok b) :
    pyOr s y = .ok (if b then s else y) := by
  simp only [pyOr, hb, ok_bind]
  cases b <;> rfl

theorem get_arg_no_record {ss : SessionState} {fn : String} (arg : String)
    (h : ss.lookup fn = Option.none) :
    get_arg_from_session_state ss fn arg = .ok Value.none := by
  simp [get_arg_from_session_state, h]

theorem get_arg_record {ss : SessionState} {fn : String} {rec : InputValues}
    (arg : String) (v : Value) (h : ss.lookup fn = some rec)
    (h2 : rec.lookup arg = some v) :
    get_arg_from_session_state ss fn arg = .ok v := by
  simp [get_arg_from_session_state, h, h2]

theorem recall_or_some {ss : SessionState} {fn arg : String} {s : Value}
    (dv f : Value) (b : Bool)
    (hs : get_arg_from_session_state ss fn arg = .ok s)
    (hb : truthy s = .ok b) :
    recall_or ss fn arg (some dv) f = .ok (if b then s else dv) := by
  simp only [recall_or, hs, ok_bind, pyOr_eq s dv b hb]

theorem recall_or_no_default (ss : SessionState) (fn arg : String) (f : Value) :
    recall_or ss fn arg Option.none f = .ok f := rfl

theorem lookup_setk (ss : SessionState) (k : String) (v : InputValues) :
    (setk ss k v).lookup k = some v := by
  induction ss with
  | nil => simp [setk, List.lookup]
  | cons p rest ih =>
    by_cases h : p.1 = k
    · simp [setk, h, List.lookup]
    · have hb : (k == p.1) = false := beq_eq_false_iff_ne.mpr (Ne.symm h)
      simp [setk, h, List.lookup, hb, ih]

theorem py_index_not_mem (options : List Value) (v : Value) (h : v ∉ options) :
    py_index options v = .error "ValueError" := by
  have hio : options.indexOf? v = Option.none := by
    rw [List.indexOf?_eq_none_iff]
    intro x hx
    simp only [beq_iff_eq]
    rintro rfl
    exact h hx
  simp [py_index, hio]

theorem py_index_mem (options : List Value) (v : Value) (h : v ∈ options) :
    ∃ i, py_index options v = .ok i := by
  cases hio : options.indexOf? v with
  | none =>
    rw [List.indexOf?_eq_none_iff] at hio
    exact absurd (beq_iff_eq.mpr rfl) (hio v h)
  | some i => exact ⟨i, by simp [py_index, hio]⟩

theorem process_argument_int (ss : SessionState) (fn : String)
    (da : Option (List (String × Value))) (edits : String → Option Value)
    (a : Argument) (h : normalize_hint a.type_hint = TypeHint.int) :
    process_argument ss fn da edits a = (do
      let s ← get_arg_from_session_state ss fn a.argument
      let d ← pyOr s ((pa_default da a).getD (Value.int 12))
      pure ⟨some (.number_input_step1 (pa_tlabel a TypeHint.int) d), Option.none,
        some ((edits a.argument).getD d)⟩) := by
  simp only [process_argument, h]
  rfl

theorem pyOr_self (v : Value) (b : Bool) (hb : truthy v = .ok b) :
    pyOr v v = .ok v := by
  rw [pyOr_eq v v b hb]
  cases b <;> rfl

theorem py_index_head (v : Value) (l : List Value) :
    py_index (v :: l) v = .ok 0 := by
  simp [py_index, List.indexOf?_cons]

theorem pa_default_no_override {da : Option (List (String × Value))}
    {a : Argument} (h : override_lookup da a.argument = Option.none) :
    pa_default da a = a.default := by
  simp [pa_default, h]

theorem pa_default_override {da : Option (List (String × Value))}
    {a : Argument} {o : Value} (h : override_lookup da a.argument = some o) :
    pa_default da a = some o := by
  simp [pa_default, h]

theorem recall_or_of_no_record {ss : SessionState} {fn : String} (arg : String)
    (d : Option Value) (f : Value) (h : ss.lookup fn = Option.none) :
    recall_or ss fn arg d f = .ok (d.getD f) := by
  cases d with
  | none => rfl
  | some dv =>
    rw [recall_or_some dv f false (get_arg_no_record arg h) rfl]
    rfl

theorem process_argument_empty (ss : SessionState) (fn : String)
    (da : Option (List (String × Value))) (edits : String → Option Value)
    (a : Argument) (h : normalize_hint a.type_hint = TypeHint.empty) :
    process_argument ss fn da edits a = (do
      let d ← recall_or ss fn a.argument (pa_default da a) (Value.str "Sample string")
      pure ⟨some (.text_input (pa_label a) d), Option.none,
        some ((edits a.argument).getD d)⟩) := by
  simp only [process_argument, h]

theorem process_argument_float (ss : SessionState) (fn : String)
    (da : Option (List (String × Value))) (edits : String → Option Value)
    (a : Argument) (h : normalize_hint a.type_hint = TypeHint.float) :
    process_argument ss fn da edits a = (do
      let d ← recall_or ss fn a.argument (pa_default da a) (Value.float 12)
      pure ⟨some (.number_input (pa_tlabel a TypeHint.float) d), Option.none,
        some ((edits a.argument).getD d)⟩) := by
  simp only [process_argument, h]
  rfl

theorem process_argument_str_color (ss : SessionState) (fn : String)
    (da : Option (List (String × Value))) (edits : String → Option Value)
    (a : Argument) (h : normalize_hint a.type_hint = TypeHint.str)
    (hc : py_endswith a.argument "_color" = true) :
    process_argument ss fn da edits a = (do
      let d ← recall_or ss fn a.argument (pa_default da a) (Value.str "#000000")
      pure ⟨some (.color_picker (pa_tlabel a TypeHint.str) d), Option.none,
        some ((edits a.argument).getD d)⟩) := by
  simp only [process_argument, h, hc]
  rfl

theorem process_argument_str_plain (ss : SessionState) (fn : String)
    (da : Option (List (String × Value))) (edits : String → Option Value)
    (a : Argument) (h : normalize_hint a.type_hint = TypeHint.str)
    (hc : py_endswith a.argument "_color" = false) :
    process_argument ss fn da edits a = (do
      let d ← recall_or ss fn a.argument (pa_default da a) (Value.str "Sample string")
      pure ⟨some (.st_keyup (pa_tlabel a TypeHint.str) d), Option.none,
        some ((edits a.argument).getD d)⟩) := by
  simp only [process_argument, h, hc]
  rfl

theorem process_argument_bool (ss : SessionState) (fn : String)
    (da : Option (List (String × Value))) (edits : String → Option Value)
    (a : Argument) (h : normalize_hint a.type_hint = TypeHint.bool) :
    process_argument ss fn da edits a = (do
      let d ← recall_or ss fn a.argument (pa_default da a) (Value.bool true)
      pure ⟨some (.checkbox (pa_tlabel a TypeHint.bool) d), Option.none,
        some ((edits a.argument).getD d)⟩) := by
  simp only [process_argument, h]
  rfl

theorem process_argument_dataFrame (ss : SessionState) (fn : String)
    (da : Option (List (String × Value))) (edits : String → Option Value)
    (a : Argument) (h : normalize_hint a.type_hint = TypeHint.dataFrame) :
    process_argument ss fn da edits a = (do
      let s ← get_arg_from_session_state ss fn a.argument
      let v ← pyOr s (Value.table ["abcde"])
      pure ⟨Option.none, Option.none, some v⟩) := by
  simp only [process_argument, h]
  rfl

theorem process_argument_lit_default (ss : SessionState) (fn : String)
    (da : Option (List (String × Value))) (edits : String → Option Value)
    (a : Argument) (options : List Value) (dv : Value)
    (h : normalize_hint a.type_hint = TypeHint.lit options)
    (hd : pa_default da a = some dv) :
    process_argument ss fn da edits a = (do
      let d ← recall_or ss fn a.argument (some dv) Value.none
      let idx ← py_index options d
      pure ⟨some (.selectbox (pa_tlabel a (TypeHint.lit options)) options idx),
        Option.none, some ((edits a.argument).getD d)⟩) := by
  simp only [process_argument, h, hd]
  rfl

theorem process_argument_lit_req_nil (ss : SessionState) (fn : String)
    (da : Option (List (String × Value))) (edits : String → Option Value)
    (a : Argument) (h : normalize_hint a.type_hint = TypeHint.lit [])
    (hd : pa_default da a = Option.none) :
    process_argument ss fn da edits a = .error "IndexError" := by
  simp only [process_argument, h, hd]
  rfl

theorem process_argument_lit_req (ss : SessionState) (fn : String)
    (da : Option (List (String × Value))) (edits : String → Option Value)
    (a : Argument) (o : Value) (rest : List Value)
    (h : normalize_hint a.type_hint = TypeHint.lit (o :: rest))
    (hd : pa_default da a = Option.none) :
    process_argument ss fn da edits a = (do
      let idx ← py_index (o :: rest) o
      pure ⟨some (.selectbox (pa_tlabel a (TypeHint.lit (o :: rest))) (o :: rest) idx),
        Option.none, some ((edits a.argument).getD o)⟩) := by
  simp only [process_argument, h, hd]
  rfl

theorem process_argument_named (ss : SessionState) (fn : String)
    (da : Option (List (String × Value))) (edits : String → Option Value)
    (a : Argument) (n : String) (h : normalize_hint a.type_hint = TypeHint.named n) :
    process_argument ss fn da edits a =
      .ok ⟨Option.none, some ("function_explorer does not support type " ++ n),
        Option.none⟩ := by
  simp only [process_argument, h]
  rfl

theorem process_argument_noneType (ss : SessionState) (fn : String)
    (da : Option (List (String × Value))) (edits : String → Option Value)
    (a : Argument) (h : normalize_hint a.type_hint = TypeHint.noneType) :
    process_argument ss fn da edits a =
      .ok ⟨Option.none, some ("function_explorer does not support type NoneType"),
        Option.none⟩ := by
  simp only [process_argument, h]
  rfl

theorem process_argument_union (ss : SessionState) (fn : String)
    (da : Option (List (String × Value))) (edits : String → Option Value)
    (a : Argument) (ts : List TypeHint)
    (h : normalize_hint a.type_hint = TypeHint.union ts) :
    process_argument ss fn da edits a =
      .ok ⟨Option.none, some ("function_explorer does not support type Union"),
        Option.none⟩ := by
  simp only [process_argument, h]
  rfl

theorem process_argument_unnamed (ss : SessionState) (fn : String)
    (da : Option (List (String × Value))) (edits : String → Option Value)
    (a : Argument) (s : String) (h : normalize_hint a.type_hint = TypeHint.unnamed s) :
    process_argument ss fn da edits a =
      .error ("Not sure how to handle " ++ s) := by
  simp only [process_argument, h]
  rfl

/-- Claim C1 counterexample: for `f(x: int)` whose previous render remembered
`x = 12`, passing the override `default_arguments = dict(x=5)` still
renders the widget with default 12, not the override 5. -/
theorem override_beaten_by_session :
    process_argument [("f", [("x", Value.int 12)])] "f"
        (some [("x", Value.int 5)]) noEdits ⟨"x", TypeHint.int, Option.none⟩ =
      .ok ⟨some (Widget.number_input_step1 "x* (int)" (Value.int 12)),
        Option.none, some (Value.int 12)⟩ ∧
    Value.int 12 ≠ Value.int 5 := by
  exact ⟨rfl, by decide⟩

/-- Claim C1 amended: for a parameter of untyped, int, float, str or bool
resolved type, an override takes precedence over the declared default
(the declared default does not appear in the result at all), but a
truthy remembered session value takes precedence over the override: the
widget default is the session value when it is truthy, and the override
otherwise. -/
theorem override_precedence (ss : SessionState) (fn : String)
    (da : Option (List (String × Value))) (edits : String → Option Value)
    (a : Argument) (s o : Value) (b : Bool)
    (hh : scalar_hint a.type_hint = true)
    (ho : override_lookup da a.argument = some o)
    (hs : get_arg_from_session_state ss fn a.argument = .ok s)
    (hb : truthy s = .ok b) :
    ∃ r w, process_argument ss fn da edits a = .ok r ∧ r.widget = some w ∧
      widget_default w = some (if b then s else o) ∧
      r.entry = some ((edits a.argument).getD (if b then s else o)) := by
  have hd : pa_default da a = some o := pa_default_override ho
  cases hth : a.type_hint with
  | empty =>
    rw [process_argument_empty ss fn da edits a (by rw [hth]; rfl), hd,
      recall_or_some o (Value.str "Sample string") b hs hb]
    exact ⟨_, _, rfl, rfl, rfl, rfl⟩
  | int =>
    rw [process_argument_int ss fn da edits a (by rw [hth]; rfl), hs]
    simp only [ok_bind, hd, Option.getD_some, pyOr_eq s o b hb]
    exact ⟨_, _, rfl, rfl, rfl, rfl⟩
  | float =>
    rw [process_argument_float ss fn da edits a (by rw [hth]; rfl), hd,
      recall_or_some o (Value.float 12) b hs hb]
    exact ⟨_, _, rfl, rfl, rfl, rfl⟩
  | str =>
    cases hc : py_endswith a.argument "_color" with
    | true =>
      rw [process_argument_str_color ss fn da edits a (by rw [hth]; rfl) hc, hd,
        recall_or_some o (Value.str "#000000") b hs hb]
      exact ⟨_, _, rfl, rfl, rfl, rfl⟩
    | false =>
      rw [process_argument_str_plain ss fn da edits a (by rw [hth]; rfl) hc, hd,
        recall_or_some o (Value.str "Sample string") b hs hb]
      exact ⟨_, _, rfl, rfl, rfl, rfl⟩
  | bool =>
    rw [process_argument_bool ss fn da edits a (by rw [hth]; rfl), hd,
      recall_or_some o (Value.bool true) b hs hb]
    exact ⟨_, _, rfl, rfl, rfl, rfl⟩
  | dataFrame => rw [hth] at hh; simp [scalar_hint] at hh
  | noneType => rw [hth] at hh; simp [scalar_hint] at hh
  | lit options => rw [hth] at hh; simp [scalar_hint] at hh
  | union ts => rw [hth] at hh; simp [scalar_hint] at hh
  | named n => rw [hth] at hh; simp [scalar_hint] at hh
  | unnamed s0 => rw [hth] at hh; simp [scalar_hint] at hh

/-- Witness for `override_precedence` at a concrete falsy session value:
`f(x: int)` with remembered `x = 0` and override `x = 5` renders 5. -/
theorem override_precedence_witness :
    ∃ r w, process_argument [("f", [("x", Value.int 0)])] "f"
        (some [("x", Value.int 5)]) noEdits ⟨"x", TypeHint.int, Option.none⟩ =
        .ok r ∧ r.widget = some w ∧
      widget_default w = some (if false then Value.int 0 else Value.int 5) ∧
      r.entry = some ((noEdits "x").getD (if false then Value.int 0 else Value.int 5)) :=
  override_precedence _ _ _ _ _ (Value.int 0) (Value.int 5) false
    rfl rfl rfl rfl

/-- Claim C4 counterexample: a parameter annotated with a PEP 604 union
`int | str` (an annotation object with no `__name__`, not recognized by
the `isinstance(type_hint, UnionType)` normalization) makes the selector
raise `Exception("Not sure how to handle ...")`, aborting the render
instead of warning. -/
theorem unsupported_unnamed_raises :
    process_argument [] "f" Option.none noEdits
      ⟨"x", TypeHint.unnamed "int | str", Option.none⟩ =
    .error "Not sure how to handle int | str" := rfl

/-- Claim C4 amended: for an unsupported annotation that does expose a
`__name__` (e.g. a custom class), rendering does not abort: a warning is
surfaced and the parameter is absent from InputValues; but an annotation
lacking `__name__` raises an Exception before widget dispatch. -/
theorem unsupported_named_warns (ss : SessionState) (fn : String)
    (da : Option (List (String × Value))) (edits : String → Option Value)
    (a : Argument) (n : String) (h : a.type_hint = TypeHint.named n) :
    process_argument ss fn da edits a =
      .ok ⟨Option.none, some ("function_explorer does not support type " ++ n),
        Option.none⟩ :=
  process_argument_named ss fn da edits a n (by rw [h]; rfl)

/-- Witness for `unsupported_named_warns` at a concrete class-annotated
parameter. -/
theorem unsupported_named_warns_witness :
    process_argument [] "f" Option.none noEdits
        ⟨"x", TypeHint.named "MyClass", Option.none⟩ =
      .ok ⟨Option.none, some ("function_explorer does not support type MyClass"),
        Option.none⟩ :=
  unsupported_named_warns [] "f" Option.none noEdits _ "MyClass" rfl

/-- Claim C5: for a Literal-typed parameter with a declared default and no
override, when the effective default (the remembered session value if
truthy, else the declared default) is not among the Literal's options,
`options.index(default)` raises ValueError and the error propagates out
of the selector unrecovered. -/
theorem literal_stale_value_fatal (ss : SessionState) (fn : String)
    (da : Option (List (String × Value))) (edits : String → Option Value)
    (a : Argument) (options : List Value) (dv s : Value) (b : Bool)
    (hh : a.type_hint = TypeHint.lit options)
    (hda : override_lookup da a.argument = Option.none)
    (hdef : a.default = some dv)
    (hs : get_arg_from_session_state ss fn a.argument = .ok s)
    (hb : truthy s = .ok b)
    (hnot : (if b then s else dv) ∉ options) :
    process_argument ss fn da edits a = .error "ValueError" := by
  have hd : pa_default da a = some dv := by
    rw [pa_default_no_override hda, hdef]
  rw [process_argument_lit_default ss fn da edits a options dv (by rw [hh]; rfl) hd,
    recall_or_some dv Value.none b hs hb]
  simp only [ok_bind, py_index_not_mem options _ hnot, error_bind]

/-- Witness for `literal_stale_value_fatal`: `Literal["a","b"]` with a
remembered session value `"c"` raises. -/
theorem literal_stale_value_fatal_witness :
    process_argument [("f", [("x", Value.str "c")])] "f" Option.none noEdits
      ⟨"x", TypeHint.lit [Value.str "a", Value.str "b"], some (Value.str "a")⟩ =
    .error "ValueError" :=
  literal_stale_value_fatal _ _ _ _ _ [Value.str "a", Value.str "b"]
    (Value.str "a") (Value.str "c") true rfl rfl rfl rfl rfl (by decide)

/-- Claim C6: a parameter annotated `Optional[T]` (a two-armed `typing.Union`
with `NoneType` second) is processed identically to the same parameter
annotated plainly as `T`, for every non-union `T`: same widget, same
label suffix, same effective default, same InputValues entry. -/
theorem optional_same_as_plain (ss : SessionState) (fn : String)
    (da : Option (List (String × Value))) (edits : String → Option Value)
    (arg : String) (d : Option Value) (t : TypeHint)
    (h : ∀ ts, t ≠ TypeHint.union ts) :
    process_argument ss fn da edits ⟨arg, TypeHint.union [t, TypeHint.noneType], d⟩ =
    process_argument ss fn da edits ⟨arg, t, d⟩ := by
  cases t with
  | union ts => exact absurd rfl (h ts)
  | _ => rfl

/-- Witness for `optional_same_as_plain` at `T = int`. -/
theorem optional_same_as_plain_witness :
    process_argument [] "f" Option.none noEdits
      ⟨"x", TypeHint.union [TypeHint.int, TypeHint.noneType], Option.none⟩ =
    process_argument [] "f" Option.none noEdits ⟨"x", TypeHint.int, Option.none⟩ :=
  optional_same_as_plain [] "f" Option.none noEdits "x" Option.none TypeHint.int
    (fun _ h => TypeHint.noConfusion h)

/-- Claim C7: a str-typed parameter whose name ends in `_color` always gets
the color picker (never the plain text widget), and when neither an
override nor a declared default exists the widget default is the
hardcoded `"#000000"`. -/
theorem color_name_gets_color_picker (ss : SessionState) (fn : String)
    (da : Option (List (String × Value))) (edits : String → Option Value)
    (a : Argument) (s : Value) (b : Bool)
    (hstr : a.type_hint = TypeHint.str)
    (hc : py_endswith a.argument "_color" = true)
    (hs : get_arg_from_session_state ss fn a.argument = .ok s)
    (hb : truthy s = .ok b) :
    ∃ v, process_argument ss fn da edits a =
        .ok ⟨some (Widget.color_picker (pa_tlabel a TypeHint.str) v), Option.none,
          some ((edits a.argument).getD v)⟩ ∧
      (override_lookup da a.argument = Option.none → a.default = Option.none →
        v = Value.str "#000000") := by
  rw [process_argument_str_color ss fn da edits a (by rw [hstr]; rfl) hc]
  cases hd : pa_default da a with
  | none =>
    rw [recall_or_no_default]
    exact ⟨Value.str "#000000", rfl, fun _ _ => rfl⟩
  | some dv =>
    rw [recall_or_some dv (Value.str "#000000") b hs hb]
    refine ⟨if b then s else dv, rfl, fun h1 h2 => ?_⟩
    rw [pa_default_no_override h1, h2] at hd
    exact Option.noConfusion hd

/-- Witness for `color_name_gets_color_picker`: a required
`bg_color: str` parameter with no record renders the color picker with
default `"#000000"`. -/
theorem color_name_gets_color_picker_witness :
    ∃ v, process_argument [] "f" Option.none noEdits
        ⟨"bg_color", TypeHint.str, Option.none⟩ =
        .ok ⟨some (Widget.color_picker
            (pa_tlabel ⟨"bg_color", TypeHint.str, Option.none⟩ TypeHint.str) v),
          Option.none, some ((noEdits "bg_color").getD v)⟩ ∧
      (override_lookup Option.none "bg_color" = Option.none →
        (Option.none : Option Value) = Option.none → v = Value.str "#000000") :=
  color_name_gets_color_picker [] "f" Option.none noEdits
    ⟨"bg_color", TypeHint.str, Option.none⟩ Value.none false rfl (by decide) rfl rfl

/-- Claim C8, code-bug evidence: for `f(df: pd.DataFrame)`, the first render
stores the placeholder table in the session record, and the second
render raises: `get_arg_from_session_state(...) or pd.DataFrame(["abcde"])`
evaluates the truthiness of the remembered DataFrame, which pandas
forbids (ValueError: truth value of a DataFrame is ambiguous), so the
remembered table is never successfully pulled from the session. -/
theorem dataframe_recall_raises :
    function_explorer [] "f" [⟨"df", TypeHint.dataFrame, Option.none⟩]
        Option.none noEdits okFunc =
      ([("f", [("df", Value.table ["abcde"])])],
        .ok ([("df", Value.table ["abcde"])],
          [⟨Option.none, Option.none, some (Value.table ["abcde"])⟩])) ∧
    function_explorer [("f", [("df", Value.table ["abcde"])])] "f"
        [⟨"df", TypeHint.dataFrame, Option.none⟩] Option.none noEdits okFunc =
      ([("f", [("df", Value.table ["abcde"])])], .error "ValueError") :=
  ⟨rfl, rfl⟩

/-- Claim C10: when the invoked target function raises, `function_explorer`
propagates the error and the session state is exactly the state before
the call: the write of InputValues into the session record happens only
after the invocation returns. -/
theorem failed_call_leaves_session (ss : SessionState) (fn : String)
    (args : List Argument) (da : Option (List (String × Value)))
    (edits : String → Option Value) (func : InputValues → Except String Unit)
    (inputs : InputValues) (renders : List ArgRender) (e : String)
    (hr : render_args ss fn da edits args = .ok (inputs, renders))
    (hf : func inputs = .error e) :
    function_explorer ss fn args da edits func = (ss, .error e) := by
  simp [function_explorer, hr, hf]

/-- Witness for `failed_call_leaves_session`: a raising target function
leaves a pre-existing session record for another function untouched. -/
theorem failed_call_leaves_session_witness :
    function_explorer [("g", [("y", Value.int 3)])] "f" [] Option.none noEdits
      raisingFunc = ([("g", [("y", Value.int 3)])], .error "boom") :=
  failed_call_leaves_session _ "f" [] Option.none noEdits raisingFunc [] [] "boom"
    rfl rfl

theorem process_declared (ss : SessionState) (fn : String)
    (da : Option (List (String × Value))) (a : Argument) (dv : Value)
    (h0 : ss.lookup fn = Option.none)
    (hda : override_lookup da a.argument = Option.none)
    (hty : base_typed a.type_hint = true)
    (hdef : a.default = some dv) :
    ∃ w, process_argument ss fn da noEdits a = .ok ⟨some w, Option.none, some dv⟩ ∧
      widget_default w = some dv := by
  have hd : pa_default da a = some dv := by rw [pa_default_no_override hda, hdef]
  cases hth : a.type_hint with
  | int =>
    rw [process_argument_int ss fn da noEdits a (by rw [hth]; rfl),
      get_arg_no_record a.argument h0]
    simp only [ok_bind, hd, Option.getD_some, pyOr_eq Value.none dv false rfl]
    exact ⟨_, rfl, rfl⟩
  | float =>
    rw [process_argument_float ss fn da noEdits a (by rw [hth]; rfl),
      recall_or_of_no_record a.argument _ _ h0, hd]
    exact ⟨_, rfl, rfl⟩
  | str =>
    cases hc : py_endswith a.argument "_color" with
    | true =>
      rw [process_argument_str_color ss fn da noEdits a (by rw [hth]; rfl) hc,
        recall_or_of_no_record a.argument _ _ h0, hd]
      exact ⟨_, rfl, rfl⟩
    | false =>
      rw [process_argument_str_plain ss fn da noEdits a (by rw [hth]; rfl) hc,
        recall_or_of_no_record a.argument _ _ h0, hd]
      exact ⟨_, rfl, rfl⟩
  | bool =>
    rw [process_argument_bool ss fn da noEdits a (by rw [hth]; rfl),
      recall_or_of_no_record a.argument _ _ h0, hd]
    exact ⟨_, rfl, rfl⟩
  | empty => rw [hth] at hty; simp [base_typed] at hty
  | dataFrame => rw [hth] at hty; simp [base_typed] at hty
  | noneType => rw [hth] at hty; simp [base_typed] at hty
  | lit options => rw [hth] at hty; simp [base_typed] at hty
  | union ts => rw [hth] at hty; simp [base_typed] at hty
  | named n => rw [hth] at hty; simp [base_typed] at hty
  | unnamed s0 => rw [hth] at hty; simp [base_typed] at hty

/-- Claim C3: for a function whose parameters are all typed int, float, str or
bool and all carry declared defaults, with no caller override and no
session record, the rendered InputValues (absent user edits) bind each
argument to its own declared default — including falsy defaults — and
each widget's default equals its entry. -/
theorem declared_defaults_rendered (ss : SessionState) (fn : String)
    (da : Option (List (String × Value))) (args : List Argument)
    (h0 : ss.lookup fn = Option.none)
    (hda : ∀ a ∈ args, override_lookup da a.argument = Option.none)
    (hty : ∀ a ∈ args, base_typed a.type_hint = true)
    (hdef : ∀ a ∈ args, a.default.isSome = true) :
    ∃ renders, render_args ss fn da noEdits args =
        .ok (args.map (fun a => (a.argument, a.default.getD Value.none)), renders) ∧
      ∀ r ∈ renders, ∃ w, r.widget = some w ∧ widget_default w = r.entry := by
  induction args with
  | nil => exact ⟨[], rfl, fun r hr => absurd hr (List.not_mem_nil r)⟩
  | cons a rest ih =>
    obtain ⟨dv, hdv⟩ := Option.isSome_iff_exists.mp (hdef a (List.mem_cons_self a rest))
    obtain ⟨w, hw, hwd⟩ := process_declared ss fn da a dv h0
      (hda a (List.mem_cons_self a rest)) (hty a (List.mem_cons_self a rest)) hdv
    obtain ⟨renders, hrend, hws⟩ := ih (fun x hx => hda x (List.mem_cons_of_mem a hx))
      (fun x hx => hty x (List.mem_cons_of_mem a hx))
      (fun x hx => hdef x (List.mem_cons_of_mem a hx))
    refine ⟨⟨some w, Option.none, some dv⟩ :: renders, ?_, ?_⟩
    · simp only [render_args, hw, ok_bind, hrend, List.map_cons, hdv, Option.getD_some]
      rfl
    · intro r hr
      rcases List.mem_cons.mp hr with rfl | hmem
      · exact ⟨w, rfl, hwd⟩
      · exact hws r hmem

/-- Witness for `declared_defaults_rendered`: a function with falsy
declared defaults `f(a: int = 0, b: float = 0.0, c: str = "", d: bool = False)`
renders exactly those falsy defaults. -/
theorem declared_defaults_rendered_witness :
    ∃ renders, render_args [] "f" Option.none noEdits falsyArgs =
        .ok (falsyArgs.map (fun a => (a.argument, a.default.getD Value.none)), renders) ∧
      ∀ r ∈ renders, ∃ w, r.widget = some w ∧ widget_default w = r.entry :=
  declared_defaults_rendered [] "f" Option.none falsyArgs rfl
    (fun _ _ => rfl) (by decide) (by decide)

@[simp] theorem pure_ok {ε α : Type} (a : α) :
    (pure a : Except ε α) = Except.ok a := rfl

theorem process_entry_produces (ss : SessionState) (fn : String)
    (da : Option (List (String × Value))) (edits : String → Option Value)
    (a : Argument) (r : ArgRender)
    (h : process_argument ss fn da edits a = .ok r) :
    r.entry.isSome = produces_entry a := by
  cases hnh : normalize_hint a.type_hint with
  | empty =>
    rw [process_argument_empty ss fn da edits a hnh] at h
    simp only [produces_entry, hnh]
    cases hd : recall_or ss fn a.argument (pa_default da a) (Value.str "Sample string") with
    | error e => simp only [hd, error_bind] at h; exact Except.noConfusion h
    | ok d =>
      simp only [hd, ok_bind, pure_ok] at h
      injection h with h
      subst h
      rfl
  | int =>
    rw [process_argument_int ss fn da edits a hnh] at h
    simp only [produces_entry, hnh]
    cases hs : get_arg_from_session_state ss fn a.argument with
    | error e => simp only [hs, error_bind] at h; exact Except.noConfusion h
    | ok s =>
      simp only [hs, ok_bind] at h
      cases hp : pyOr s ((pa_default da a).getD (Value.int 12)) with
      | error e => simp only [hp, error_bind] at h; exact Except.noConfusion h
      | ok d =>
        simp only [hp, ok_bind, pure_ok] at h
        injection h with h
        subst h
        rfl
  | float =>
    rw [process_argument_float ss fn da edits a hnh] at h
    simp only [produces_entry, hnh]
    cases hd : recall_or ss fn a.argument (pa_default da a) (Value.float 12) with
    | error e => simp only [hd, error_bind] at h; exact Except.noConfusion h
    | ok d =>
      simp only [hd, ok_bind, pure_ok] at h
      injection h with h
      subst h
      rfl
  | str =>
    simp only [produces_entry, hnh]
    cases hc : py_endswith a.argument "_color" with
    | true =>
      rw [process_argument_str_color ss fn da edits a hnh hc] at h
      cases hd : recall_or ss fn a.argument (pa_default da a) (Value.str "#000000") with
      | error e => simp only [hd, error_bind] at h; exact Except.noConfusion h
      | ok d =>
        simp only [hd, ok_bind, pure_ok] at h
        injection h with h
        subst h
        rfl
    | false =>
      rw [process_argument_str_plain ss fn da edits a hnh hc] at h
      cases hd : recall_or ss fn a.argument (pa_default da a) (Value.str "Sample string") with
      | error e => simp only [hd, error_bind] at h; exact Except.noConfusion h
      | ok d =>
        simp only [hd, ok_bind, pure_ok] at h
        injection h with h
        subst h
        rfl
  | bool =>
    rw [process_argument_bool ss fn da edits a hnh] at h
    simp only [produces_entry, hnh]
    cases hd : recall_or ss fn a.argument (pa_default da a) (Value.bool true) with
    | error e => simp only [hd, error_bind] at h; exact Except.noConfusion h
    | ok d =>
      simp only [hd, ok_bind, pure_ok] at h
      injection h with h
      subst h
      rfl
  | dataFrame =>
    rw [process_argument_dataFrame ss fn da edits a hnh] at h
    simp only [produces_entry, hnh]
    cases hs : get_arg_from_session_state ss fn a.argument with
    | error e => simp only [hs, error_bind] at h; exact Except.noConfusion h
    | ok s =>
      simp only [hs, ok_bind] at h
      cases hp : pyOr s (Value.table ["abcde"]) with
      | error e => simp only [hp, error_bind] at h; exact Except.noConfusion h
      | ok v =>
        simp only [hp, ok_bind, pure_ok] at h
        injection h with h
        subst h
        rfl
  | lit options =>
    simp only [produces_entry, hnh]
    cases hd : pa_default da a with
    | some dv =>
      rw [process_argument_lit_default ss fn da edits a options dv hnh hd] at h
      cases hrec : recall_or ss fn a.argument (some dv) Value.none with
      | error e => simp only [hrec, error_bind] at h; exact Except.noConfusion h
      | ok d =>
        simp only [hrec, ok_bind] at h
        cases hi : py_index options d with
        | error e => simp only [hi, error_bind] at h; exact Except.noConfusion h
        | ok idx =>
          simp only [hi, ok_bind, pure_ok] at h
          injection h with h
          subst h
          rfl
    | none =>
      cases hopt : options with
      | nil =>
        rw [hopt] at hnh
        rw [process_argument_lit_req_nil ss fn da edits a hnh hd] at h
        exact Except.noConfusion h
      | cons o rest =>
        rw [hopt] at hnh
        rw [process_argument_lit_req ss fn da edits a o rest hnh hd] at h
        cases hi : py_index (o :: rest) o with
        | error e => simp only [hi, error_bind] at h; exact Except.noConfusion h
        | ok idx =>
          simp only [hi, ok_bind, pure_ok] at h
          injection h with h
          subst h
          rfl
  | noneType =>
    rw [process_argument_noneType ss fn da edits a hnh] at h
    simp only [produces_entry, hnh]
    injection h with h
    subst h
    rfl
  | union ts =>
    rw [process_argument_union ss fn da edits a ts hnh] at h
    simp only [produces_entry, hnh]
    injection h with h
    subst h
    rfl
  | named n =>
    rw [process_argument_named ss fn da edits a n hnh] at h
    simp only [produces_entry, hnh]
    injection h with h
    subst h
    rfl
  | unnamed s0 =>
    rw [process_argument_unnamed ss fn da edits a s0 hnh] at h
    exact Except.noConfusion h

/-- Claim C9: on a successful render, the keys of InputValues are exactly the
names of the supported parameters in declared order — a subsequence of
the function's declared parameter names. -/
theorem inputs_follow_declared_order (ss : SessionState) (fn : String)
    (da : Option (List (String × Value))) (edits : String → Option Value)
    (args : List Argument) (inputs : InputValues) (renders : List ArgRender)
    (h : render_args ss fn da edits args = .ok (inputs, renders)) :
    inputs.map Prod.fst = (args.filter (fun a => produces_entry a)).map Argument.argument ∧
    List.Sublist (inputs.map Prod.fst) (args.map Argument.argument) := by
  have key : inputs.map Prod.fst = (args.filter (fun a => produces_entry a)).map Argument.argument := by
    induction args generalizing inputs renders with
    | nil =>
      injection h with h
      injection h with h1 h2
      subst h1
      rfl
    | cons a rest ih =>
      rw [render_args] at h
      cases hp : process_argument ss fn da edits a with
      | error e => simp only [hp, error_bind] at h; exact Except.noConfusion h
      | ok r =>
        simp only [hp, ok_bind] at h
        cases hrest : render_args ss fn da edits rest with
        | error e => simp only [hrest, error_bind] at h; exact Except.noConfusion h
        | ok p =>
          obtain ⟨inputs1, rs1⟩ := p
          simp only [hrest, ok_bind] at h
          have hpe := process_entry_produces ss fn da edits a r hp
          cases he : r.entry with
          | some v =>
            rw [he] at h
            simp only [pure_ok] at h
            injection h with h
            injection h with h1 h2
            subst h1
            rw [he] at hpe
            simp only [Option.isSome_some] at hpe
            simp only [List.filter_cons, ← hpe, if_true, List.map_cons, List.map_cons]
            exact congrArg (List.cons a.argument) (ih inputs1 rs1 hrest)
          | none =>
            rw [he] at h
            simp only [pure_ok] at h
            injection h with h
            injection h with h1 h2
            subst h1
            rw [he] at hpe
            simp only [Option.isSome_none] at hpe
            simp only [List.filter_cons, ← hpe, if_false]
            exact ih inputs1 rs1 hrest
  exact ⟨key, key ▸ List.Sublist.map Argument.argument (List.filter_sublist args)⟩

/-- Witness for `inputs_follow_declared_order`: a signature mixing
supported and unsupported parameter types keeps the supported names in
declared order. -/
theorem inputs_follow_declared_order_witness :
    ([("x", Value.int 12), ("z", Value.str "Sample string")] : InputValues).map Prod.fst =
      ([⟨"x", TypeHint.int, Option.none⟩, ⟨"y", TypeHint.named "MyClass", Option.none⟩,
        ⟨"z", TypeHint.str, Option.none⟩].filter (fun a => produces_entry a)).map Argument.argument ∧
    List.Sublist ((([("x", Value.int 12), ("z", Value.str "Sample string")] : InputValues)).map Prod.fst)
      ([⟨"x", TypeHint.int, Option.none⟩, ⟨"y", TypeHint.named "MyClass", Option.none⟩,
        ⟨"z", TypeHint.str, Option.none⟩].map Argument.argument) :=
  inputs_follow_declared_order [] "f" Option.none noEdits _ _
    [⟨some (Widget.number_input_step1 "x* (int)" (Value.int 12)), Option.none, some (Value.int 12)⟩,
     ⟨Option.none, some "function_explorer does not support type MyClass", Option.none⟩,
     ⟨some (Widget.st_keyup "z* (str)" (Value.str "Sample string")), Option.none,
       some (Value.str "Sample string")⟩] rfl

theorem pa_default_no_da (a : Argument) : pa_default Option.none a = a.default := rfl

theorem process_first (ss : SessionState) (fn : String) (a : Argument)
    (h0 : ss.lookup fn = Option.none) (hr : reproducible a = true) :
    ∃ w, process_argument ss fn Option.none noEdits a =
      .ok ⟨w, Option.none, some (first_value a)⟩ := by
  cases hth : a.type_hint with
  | empty =>
    rw [process_argument_empty ss fn Option.none noEdits a (by rw [hth]; rfl),
      pa_default_no_da, recall_or_of_no_record a.argument _ _ h0]
    simp only [ok_bind, pure_ok, noEdits, Option.getD_none, first_value, hth]
    exact ⟨_, rfl⟩
  | int =>
    rw [process_argument_int ss fn Option.none noEdits a (by rw [hth]; rfl),
      get_arg_no_record a.argument h0]
    simp only [ok_bind, pa_default_no_da, pyOr_eq Value.none _ false rfl]
    simp only [if_neg Bool.false_ne_true, pure_ok, noEdits, Option.getD_none,
      first_value, hth]
    exact ⟨_, rfl⟩
  | float =>
    rw [process_argument_float ss fn Option.none noEdits a (by rw [hth]; rfl),
      pa_default_no_da, recall_or_of_no_record a.argument _ _ h0]
    simp only [ok_bind, pure_ok, noEdits, Option.getD_none, first_value, hth]
    exact ⟨_, rfl⟩
  | str =>
    cases hc : py_endswith a.argument "_color" with
    | true =>
      rw [process_argument_str_color ss fn Option.none noEdits a (by rw [hth]; rfl) hc,
        pa_default_no_da, recall_or_of_no_record a.argument _ _ h0]
      simp only [ok_bind, pure_ok, noEdits, Option.getD_none, first_value, hth, hc,
        if_pos rfl]
      exact ⟨_, rfl⟩
    | false =>
      rw [process_argument_str_plain ss fn Option.none noEdits a (by rw [hth]; rfl) hc,
        pa_default_no_da, recall_or_of_no_record a.argument _ _ h0]
      simp only [ok_bind, pure_ok, noEdits, Option.getD_none, first_value, hth, hc,
        if_neg Bool.false_ne_true]
      exact ⟨_, rfl⟩
  | bool =>
    rw [process_argument_bool ss fn Option.none noEdits a (by rw [hth]; rfl),
      pa_default_no_da, recall_or_of_no_record a.argument _ _ h0]
    simp only [ok_bind, pure_ok, noEdits, Option.getD_none, first_value, hth]
    exact ⟨_, rfl⟩
  | lit options =>
    cases hdef : a.default with
    | some dv =>
      have hmem : dv ∈ options := by
        rw [reproducible, hth, hdef] at hr
        simp only [Bool.and_eq_true, decide_eq_true_eq] at hr
        exact hr.1
      rw [process_argument_lit_default ss fn Option.none noEdits a options dv
          (by rw [hth]; rfl) (by rw [pa_default_no_da, hdef]),
        recall_or_some dv Value.none false (get_arg_no_record a.argument h0) rfl]
      obtain ⟨i, hi⟩ := py_index_mem options dv hmem
      simp only [ok_bind, if_neg Bool.false_ne_true, hi, pure_ok, noEdits,
        Option.getD_none, first_value, hth, hdef, Option.getD_some]
      exact ⟨_, rfl⟩
    | none =>
      have hopts : options ≠ [] := by
        rw [reproducible, hth, hdef] at hr
        simpa [List.isEmpty_iff] using hr
      cases hoptc : options with
      | nil => exact absurd hoptc hopts
      | cons o rest =>
        rw [hoptc] at hth
        rw [process_argument_lit_req ss fn Option.none noEdits a o rest
            (by rw [hth]; rfl) (by rw [pa_default_no_da, hdef]),
          py_index_head]
        simp only [ok_bind, pure_ok, noEdits, Option.getD_none, first_value, hth,
          hdef, List.headD_cons]
        exact ⟨_, rfl⟩
  | dataFrame => simp [reproducible, hth] at hr
  | noneType => simp [reproducible, hth] at hr
  | union ts => simp [reproducible, hth] at hr
  | named n => simp [reproducible, hth] at hr
  | unnamed s0 => simp [reproducible, hth] at hr

theorem process_second (ss : SessionState) (fn : String) (a : Argument)
    (rec : InputValues) (h1 : ss.lookup fn = some rec)
    (h2 : rec.lookup a.argument = some (first_value a))
    (hr : reproducible a = true) :
    ∃ w, process_argument ss fn Option.none noEdits a =
      .ok ⟨w, Option.none, some (first_value a)⟩ := by
  cases hth : a.type_hint with
  | empty =>
    cases hdef : a.default with
    | some dv =>
      have hfv : first_value a = dv := by simp [first_value, hth, hdef]
      have htab : is_table dv = false := by
        simp [reproducible, hth, hdef] at hr
        exact hr
      obtain ⟨b, hb⟩ := truthy_ok_of_not_table dv htab
      rw [process_argument_empty ss fn Option.none noEdits a (by rw [hth]; rfl),
        pa_default_no_da, hdef,
        recall_or_some dv _ b (get_arg_record a.argument dv h1 (by rw [h2, hfv])) hb]
      simp only [ite_self, ok_bind, pure_ok, noEdits, Option.getD_none, hfv]
      exact ⟨_, rfl⟩
    | none =>
      rw [process_argument_empty ss fn Option.none noEdits a (by rw [hth]; rfl),
        pa_default_no_da, hdef, recall_or_no_default]
      simp only [ok_bind, pure_ok, noEdits, Option.getD_none, first_value, hth, hdef]
      exact ⟨_, rfl⟩
  | int =>
    have hv : first_value a = a.default.getD (Value.int 12) := by
      simp [first_value, hth]
    have htab : is_table (first_value a) = false := by
      rw [hv]
      cases hdef : a.default with
      | some dv =>
        simp [reproducible, hth, hdef] at hr
        simpa using hr
      | none => rfl
    obtain ⟨b, hb⟩ := truthy_ok_of_not_table _ htab
    rw [process_argument_int ss fn Option.none noEdits a (by rw [hth]; rfl),
      get_arg_record a.argument _ h1 h2]
    simp only [ok_bind, pa_default_no_da, ← hv, pyOr_self _ b hb, pure_ok, noEdits,
      Option.getD_none]
    exact ⟨_, rfl⟩
  | float =>
    cases hdef : a.default with
    | some dv =>
      have hfv : first_value a = dv := by simp [first_value, hth, hdef]
      have htab : is_table dv = false := by
        simp [reproducible, hth, hdef] at hr
        exact hr
      obtain ⟨b, hb⟩ := truthy_ok_of_not_table dv htab
      rw [process_argument_float ss fn Option.none noEdits a (by rw [hth]; rfl),
        pa_default_no_da, hdef,
        recall_or_some dv _ b (get_arg_record a.argument dv h1 (by rw [h2, hfv])) hb]
      simp only [ite_self, ok_bind, pure_ok, noEdits, Option.getD_none, hfv]
      exact ⟨_, rfl⟩
    | none =>
      rw [process_argument_float ss fn Option.none noEdits a (by rw [hth]; rfl),
        pa_default_no_da, hdef, recall_or_no_default]
      simp only [ok_bind, pure_ok, noEdits, Option.getD_none, first_value, hth, hdef]
      exact ⟨_, rfl⟩
  | str =>
    cases hdef : a.default with
    | some dv =>
      have hfv : first_value a = dv := by simp [first_value, hth, hdef]
      have htab : is_table dv = false := by
        simp [reproducible, hth, hdef] at hr
        exact hr
      obtain ⟨b, hb⟩ := truthy_ok_of_not_table dv htab
      cases hc : py_endswith a.argument "_color" with
      | true =>
        rw [process_argument_str_color ss fn Option.none noEdits a (by rw [hth]; rfl) hc,
          pa_default_no_da, hdef,
          recall_or_some dv _ b (get_arg_record a.argument dv h1 (by rw [h2, hfv])) hb]
        simp only [ite_self, ok_bind, pure_ok, noEdits, Option.getD_none, hfv]
        exact ⟨_, rfl⟩
      | false =>
        rw [process_argument_str_plain ss fn Option.none noEdits a (by rw [hth]; rfl) hc,
          pa_default_no_da, hdef,
          recall_or_some dv _ b (get_arg_record a.argument dv h1 (by rw [h2, hfv])) hb]
        simp only [ite_self, ok_bind, pure_ok, noEdits, Option.getD_none, hfv]
        exact ⟨_, rfl⟩
    | none =>
      cases hc : py_endswith a.argument "_color" with
      | true =>
        rw [process_argument_str_color ss fn Option.none noEdits a (by rw [hth]; rfl) hc,
          pa_default_no_da, hdef, recall_or_no_default]
        simp only [ok_bind, pure_ok, noEdits, Option.getD_none, first_value, hth,
          hdef, hc, if_pos rfl]
        exact ⟨_, rfl⟩
      | false =>
        rw [process_argument_str_plain ss fn Option.none noEdits a (by rw [hth]; rfl) hc,
          pa_default_no_da, hdef, recall_or_no_default]
        simp only [ok_bind, pure_ok, noEdits, Option.getD_none, first_value, hth,
          hdef, hc, if_neg Bool.false_ne_true]
        exact ⟨_, rfl⟩
  | bool =>
    cases hdef : a.default with
    | some dv =>
      have hfv : first_value a = dv := by simp [first_value, hth, hdef]
      have htab : is_table dv = false := by
        simp [reproducible, hth, hdef] at hr
        exact hr
      obtain ⟨b, hb⟩ := truthy_ok_of_not_table dv htab
      rw [process_argument_bool ss fn Option.none noEdits a (by rw [hth]; rfl),
        pa_default_no_da, hdef,
        recall_or_some dv _ b (get_arg_record a.argument dv h1 (by rw [h2, hfv])) hb]
      simp only [ite_self, ok_bind, pure_ok, noEdits, Option.getD_none, hfv]
      exact ⟨_, rfl⟩
    | none =>
      rw [process_argument_bool ss fn Option.none noEdits a (by rw [hth]; rfl),
        pa_default_no_da, hdef, recall_or_no_default]
      simp only [ok_bind, pure_ok, noEdits, Option.getD_none, first_value, hth, hdef]
      exact ⟨_, rfl⟩
  | lit options =>
    cases hdef : a.default with
    | some dv =>
      have hfv : first_value a = dv := by simp [first_value, hth, hdef]
      have hmem : dv ∈ options := by
        rw [reproducible, hth, hdef] at hr
        simp only [Bool.and_eq_true, decide_eq_true_eq] at hr
        exact hr.1
      have htab : is_table dv = false := by
        rw [reproducible, hth, hdef] at hr
        simp only [Bool.and_eq_true, Bool.not_eq_true'] at hr
        exact hr.2
      obtain ⟨b, hb⟩ := truthy_ok_of_not_table dv htab
      rw [process_argument_lit_default ss fn Option.none noEdits a options dv
          (by rw [hth]; rfl) (by rw [pa_default_no_da, hdef]),
        recall_or_some dv Value.none b
          (get_arg_record a.argument dv h1 (by rw [h2, hfv])) hb]
      obtain ⟨i, hi⟩ := py_index_mem options dv hmem
      simp only [ite_self, ok_bind, hi, pure_ok, noEdits, Option.getD_none, hfv]
      exact ⟨_, rfl⟩
    | none =>
      have hopts : options ≠ [] := by
        rw [reproducible, hth, hdef] at hr
        simpa [List.isEmpty_iff] using hr
      cases hoptc : options with
      | nil => exact absurd hoptc hopts
      | cons o rest =>
        rw [hoptc] at hth
        rw [process_argument_lit_req ss fn Option.none noEdits a o rest
            (by rw [hth]; rfl) (by rw [pa_default_no_da, hdef]),
          py_index_head]
        simp only [ok_bind, pure_ok, noEdits, Option.getD_none, first_value, hth,
          hdef, List.headD_cons]
        exact ⟨_, rfl⟩
  | dataFrame => simp [reproducible, hth] at hr
  | noneType => simp [reproducible, hth] at hr
  | union ts => simp [reproducible, hth] at hr
  | named n => simp [reproducible, hth] at hr
  | unnamed s0 => simp [reproducible, hth] at hr

theorem lookup_map_first_value (args : List Argument) (x : Argument)
    (hx : x ∈ args) (hnd : (args.map Argument.argument).Nodup) :
    (args.map fun a => (a.argument, first_value a)).lookup x.argument =
      some (first_value x) := by
  induction args with
  | nil => exact absurd hx (List.not_mem_nil x)
  | cons a rest ih =>
    rw [List.map_cons, List.nodup_cons] at hnd
    rcases List.mem_cons.mp hx with rfl | hmem
    · simp [List.lookup]
    · have hne : (x.argument == a.argument) = false := by
        refine beq_eq_false_iff_ne.mpr (fun he => hnd.1 ?_)
        rw [← he]
        exact List.mem_map_of_mem Argument.argument hmem
      rw [List.map_cons, List.lookup_cons, hne]
      exact ih hmem hnd.2

theorem render_map (ss : SessionState) (fn : String) (args : List Argument)
    (h : ∀ a ∈ args, ∃ w, process_argument ss fn Option.none noEdits a =
      .ok ⟨w, Option.none, some (first_value a)⟩) :
    ∃ renders, render_args ss fn Option.none noEdits args =
      .ok (args.map fun a => (a.argument, first_value a), renders) := by
  induction args with
  | nil => exact ⟨[], rfl⟩
  | cons a rest ih =>
    obtain ⟨w, hw⟩ := h a (List.mem_cons_self a rest)
    obtain ⟨rs, hrs⟩ := ih (fun x hx => h x (List.mem_cons_of_mem a hx))
    refine ⟨⟨w, Option.none, some (first_value a)⟩ :: rs, ?_⟩
    rw [render_args]
    simp only [hw, ok_bind, hrs, pure_ok, List.map_cons]

/-- Claim C2 amended: after one successful invocation of `f`, the session
record under `f`'s name equals the InputValues just passed to `f`; and
when neither render passes overrides or receives user edits (so both
renders regenerate the same widget defaults), a second render of `f`
reproduces exactly the same InputValues. The original claim's coverage
of arbitrary remembered values — including falsy ones such as 0 — does
not hold: the `or`-based session recall discards falsy remembered
values, as the counterexample shows. -/
theorem session_record_roundtrip (ss : SessionState) (fn : String)
    (args : List Argument) (func : InputValues → Except String Unit)
    (hfunc : ∀ i, func i = .ok ())
    (h0 : ss.lookup fn = Option.none)
    (hnd : (args.map Argument.argument).Nodup)
    (hr : ∀ a ∈ args, reproducible a = true) :
    ∃ inputs renders renders₂,
      function_explorer ss fn args Option.none noEdits func =
        (setk ss fn inputs, .ok (inputs, renders)) ∧
      (setk ss fn inputs).lookup fn = some inputs ∧
      (function_explorer (setk ss fn inputs) fn args Option.none noEdits func).2 =
        .ok (inputs, renders₂) := by
  obtain ⟨renders, hrend⟩ := render_map ss fn args
    (fun a ha => process_first ss fn a h0 (hr a ha))
  refine ⟨args.map fun a => (a.argument, first_value a), renders, ?_⟩
  have h1 : function_explorer ss fn args Option.none noEdits func =
      (setk ss fn (args.map fun a => (a.argument, first_value a)),
        .ok (args.map fun a => (a.argument, first_value a), renders)) := by
    simp [function_explorer, hrend, hfunc]
  obtain ⟨renders₂, hrend₂⟩ := render_map
    (setk ss fn (args.map fun a => (a.argument, first_value a))) fn args
    (fun a ha => process_second _ fn a _ (lookup_setk ss fn _)
      (lookup_map_first_value args a ha hnd) (hr a ha))
  refine ⟨renders₂, h1, lookup_setk ss fn _, ?_⟩
  simp [function_explorer, hrend₂, hfunc]

/-- Claim C2 counterexample: for `f(x: int = 5)` first rendered with the
override `x = 0`, the invocation passes `x = 0` and the session records
it; but the second render with no overrides and untouched widgets
produces `x = 5`: the falsy remembered 0 is discarded by the
`or`-recall in favor of the declared default. -/
theorem falsy_remembered_value_lost :
    function_explorer [] "f" [⟨"x", TypeHint.int, some (Value.int 5)⟩]
        (some [("x", Value.int 0)]) noEdits okFunc =
      ([("f", [("x", Value.int 0)])], .ok ([("x", Value.int 0)],
        [⟨some (Widget.number_input_step1 "x (int)" (Value.int 0)), Option.none,
          some (Value.int 0)⟩])) ∧
    (function_explorer [("f", [("x", Value.int 0)])] "f"
        [⟨"x", TypeHint.int, some (Value.int 5)⟩] Option.none noEdits okFunc).2 =
      .ok ([("x", Value.int 5)],
        [⟨some (Widget.number_input_step1 "x (int)" (Value.int 5)), Option.none,
          some (Value.int 5)⟩]) ∧
    ([("x", Value.int 5)] : InputValues) ≠ [("x", Value.int 0)] :=
  ⟨rfl, rfl, by decide⟩

/-- Witness for `session_record_roundtrip` on the example function. -/
theorem session_record_roundtrip_witness :
    ∃ inputs renders renders₂,
      function_explorer [] "foo" fooArgs Option.none noEdits okFunc =
        (setk [] "foo" inputs, .ok (inputs, renders)) ∧
      (setk [] "foo" inputs).lookup "foo" = some inputs ∧
      (function_explorer (setk [] "foo" inputs) "foo" fooArgs Option.none noEdits
        okFunc).2 = .ok (inputs, renders₂) :=
  session_record_roundtrip [] "foo" fooArgs okFunc (fun _ => rfl) rfl
    (by decide) (by decide)
